import Mathlib

/-!
# Verification of the JobScraper extraction & normalization pipeline

Shallow embedding of the JavaScript `JobScraper` class: the recency window
filter (`isTimeWithin6Hours`), the positional time-token pool, the record
validator (`isValidJobData`), fingerprint generation and batch deduplication,
the local date formatter and its re-parser, the location parser, and the
per-document parsing pipeline (`parseJobsFromHTML`).

Strings are modelled as `List Char`; machine numbers as `Nat`/`Int` (the
JavaScript numbers involved — parsed digit counts, hour thresholds, calendar
components — are small nonnegative integers, exactly representable).
-/

namespace JobScraper

/-! ## Character and string primitives

JavaScript string operations used by the source, modelled over `List Char`.
-/

/-- `\d` of a JavaScript regex: the ASCII digits. -/
def isDigitChar (c : Char) : Bool := '0' ≤ c && c ≤ '9'

/-- `\s` of a JavaScript regex. Besides the ASCII whitespace characters it
also matches a few Unicode spaces; only the ones that can occur in the
scraper's time tokens are listed. -/
def isSpaceChar (c : Char) : Bool :=
  c = ' ' || c = '\t' || c = '\n' || c = '\r' || c = '\x0b' || c = '\x0c' || c = ' '

/-- Value of a digit character. -/
def digitVal (c : Char) : Nat := c.toNat - 48

/-- `parseInt` on a string of decimal digits (the only shape the source ever
passes: a regex capture of `\d+`). -/
def parseDigits (ds : List Char) : Nat :=
  ds.foldl (fun acc c => acc * 10 + digitVal c) 0

/-- Decimal digit character of `d < 10`. -/
def digitChar (d : Nat) : Char := Char.ofNat (48 + d)

/-- Decimal rendering, fuel-driven so that it reduces by kernel computation;
`natDigits` below supplies sufficient fuel and `natDigits_eq` recovers the
natural recursion. -/
def natDigitsAux : Nat → Nat → List Char
  | 0, _ => []
  | fuel + 1, n =>
    if n < 10 then [digitChar n]
    else natDigitsAux fuel (n / 10) ++ [digitChar (n % 10)]

/-- Decimal rendering of a natural number, most significant digit first
(the digits of a JavaScript number as a time token or `String(n)` carries
them). -/
def natDigits (n : Nat) : List Char := natDigitsAux (n + 1) n

/-- `String.prototype.includes`: substring containment. -/
def jsIncludes : List Char → List Char → Bool
  | hay, needle =>
    if needle.isPrefixOf hay then true
    else
      match hay with
      | [] => false
      | _ :: t => jsIncludes t needle

/-- `String.prototype.toLowerCase`, characterwise. -/
def jsToLower (s : List Char) : List Char := s.map Char.toLower

/-- `String.prototype.split(sep)` for a single-character separator.  The
result is never empty; splitting a string that does not contain the
separator yields the one-element list holding the whole string. -/
def jsSplit (sep : Char) : List Char → List (List Char)
  | [] => [[]]
  | c :: cs =>
    match jsSplit sep cs with
    | [] => [[c]]
    | h :: t => if c = sep then [] :: h :: t else (c :: h) :: t

/-- `String.prototype.trim`: strip whitespace from both ends. -/
def jsTrim (s : List Char) : List Char :=
  ((s.dropWhile isSpaceChar).reverse.dropWhile isSpaceChar).reverse

/-! ## The time regexes

`isTimeWithin6Hours` matches `/(\d+)\s*(hour|minute|min)/` against the
lowercased token; `convertToActualDateTime` matches
`/(\d+)\s*(hour|minute|min|day)/`.  Both patterns have the shape
`(\d+)\s*(alt₁|…|altₖ)` and no effective backtracking: `\d+` and `\s*` are
greedy and the characters they consume can never satisfy the literal
alternation, so the first-match search is a plain left-to-right scan trying,
at each position, maximal digits, then maximal whitespace, then the
alternatives in the order written.
-/

/-- Alternatives of the recency regex, in source order. -/
def recencyUnits : List (List Char) :=
  [['h', 'o', 'u', 'r'], ['m', 'i', 'n', 'u', 't', 'e'], ['m', 'i', 'n']]

/-- Alternatives of the normalizer regex, in source order. -/
def convertUnits : List (List Char) :=
  [['h', 'o', 'u', 'r'], ['m', 'i', 'n', 'u', 't', 'e'], ['m', 'i', 'n'], ['d', 'a', 'y']]

/-- The unit capture produced right after the digits: leading whitespace is
skipped and the alternatives are tried in the order written in the pattern. -/
def unitCapture (units : List (List Char)) (u : List Char) : Option (List Char) :=
  units.find? (fun a => a.isPrefixOf (u.dropWhile isSpaceChar))

/-- Attempt `(\d+)\s*(alt₁|…|altₖ)` anchored at the head of `cs`; on success
return the parsed number and the unit capture. -/
def tryMatchAt (units : List (List Char)) (cs : List Char) : Option (Nat × List Char) :=
  let digits := cs.takeWhile isDigitChar
  if digits.isEmpty then none
  else
    match unitCapture units (cs.drop digits.length) with
    | some a => some (parseDigits digits, a)
    | none => none

/-- First match of `(\d+)\s*(alt₁|…|altₖ)` in `cs` (leftmost position). -/
def findUnitMatch (units : List (List Char)) : List Char → Option (Nat × List Char)
  | [] => none
  | c :: cs =>
    match tryMatchAt units (c :: cs) with
    | some r => some r
    | none => findUnitMatch units cs

/-- A relative-time token as matched by the pool regex: a decimal numeral
followed by a unit phrase (e.g. `" hours ago"`). -/
def timeToken (n : Nat) (unit : List Char) : List Char := natDigits n ++ unit

/-- The fixed fallback token used when the time pool is exhausted. -/
def fallbackTime : List Char := ("3 hours ago").data

/-! ## Recency window filter -/

/-- `JobScraper.isTimeWithin6Hours(timeString)`.  `maxHoursWindow` is the
instance field set in the constructor.  Mirrors:

    if (!timeString) return false;
    const lowerTime = timeString.toLowerCase();
    const match = lowerTime.match(/(\d+)\s*(hour|minute|min)/);
    if (!match) return false;
    const number = parseInt(match[1]);
    const unit = match[2];
    if (unit.includes('minute') || unit.includes('min')) return true;
    if (unit.includes('hour')) return number <= this.maxHoursWindow;
    return false;
-/
def isTimeWithin6Hours (maxHoursWindow : Nat) (timeString : List Char) : Bool :=
  if timeString.isEmpty then false
  else
    match findUnitMatch recencyUnits (jsToLower timeString) with
    | none => false
    | some (number, unit) =>
      if jsIncludes unit ['m', 'i', 'n', 'u', 't', 'e'] || jsIncludes unit ['m', 'i', 'n'] then
        true
      else if jsIncludes unit ['h', 'o', 'u', 'r'] then
        decide (number ≤ maxHoursWindow)
      else false

/-- The scraper's threshold, set once in the constructor:
`Number(process.env.MAX_HOURS) > 0 ? Number(process.env.MAX_HOURS) : 6`.
`none` models an unset or non-numeric `MAX_HOURS` (`Number` gives `NaN`,
and `NaN > 0` is false). -/
def scraperMaxHoursWindow (envMaxHours : Option Int) : Nat :=
  match envMaxHours with
  | some v => if 0 < v then v.toNat else 6
  | none => 6

/-! ## Calendar model

`convertToActualDateTime` manipulates a JavaScript `Date` through
`setMinutes`/`setHours`/`setDate` with possibly negative arguments, which
the `Date` normalizes across day, month and year boundaries.  The embedding
uses broken-down local time on the proleptic Gregorian calendar with a fixed
UTC offset (daylight-saving transitions are outside the model).
-/

/-- Broken-down local time, as read back by `getFullYear`/`getMonth() + 1`/
`getDate`/`getHours`/`getMinutes`. -/
structure DateTime where
  year : Nat
  month : Nat
  day : Nat
  hour : Nat
  minute : Nat
deriving DecidableEq

def isLeapYear (y : Nat) : Bool :=
  (y % 4 = 0 && y % 100 ≠ 0) || y % 400 = 0

def daysInMonth (y m : Nat) : Nat :=
  if m = 2 then (if isLeapYear y then 29 else 28)
  else if m = 4 || m = 6 || m = 9 || m = 11 then 30
  else 31

/-- Step one day back, rolling over month and year boundaries. -/
def subOneDay (d : DateTime) : DateTime :=
  if 1 < d.day then { d with day := d.day - 1 }
  else if 1 < d.month then
    { d with month := d.month - 1, day := daysInMonth d.year (d.month - 1) }
  else
    { d with year := d.year - 1, month := 12, day := 31 }

/-- `date.setDate(date.getDate() - n)`. -/
def subDays (d : DateTime) : Nat → DateTime
  | 0 => d
  | n + 1 => subOneDay (subDays d n)

/-- Step one hour back, rolling over midnight. -/
def subOneHour (d : DateTime) : DateTime :=
  if 0 < d.hour then { d with hour := d.hour - 1 }
  else { subOneDay d with hour := 23 }

/-- `date.setHours(date.getHours() - n)`. -/
def subHours (d : DateTime) : Nat → DateTime
  | 0 => d
  | n + 1 => subOneHour (subHours d n)

/-- Step one minute back, rolling over the hour. -/
def subOneMinute (d : DateTime) : DateTime :=
  if 0 < d.minute then { d with minute := d.minute - 1 }
  else { subOneHour d with minute := 59 }

/-- `date.setMinutes(date.getMinutes() - n)`. -/
def subMinutes (d : DateTime) : Nat → DateTime
  | 0 => d
  | n + 1 => subOneMinute (subMinutes d n)

/-! ## Time normalizer -/

/-- `String(n).padStart(2, '0')`. -/
def pad2 (n : Nat) : List Char :=
  if n < 10 then '0' :: natDigits n else natDigits n

/-- The 12-hour clock figure rendered by `formatDateTime`:
`hours = hours % 12; hours = hours ? hours : 12`. -/
def hour12 (h : Nat) : Nat :=
  if h % 12 = 0 then 12 else h % 12

/-- `JobScraper.formatDateTime(date)`: render `YYYY-MM-DD HH:MM AM/PM`. -/
def formatDateTime (d : DateTime) : List Char :=
  natDigits d.year ++ '-' :: pad2 d.month ++ '-' :: pad2 d.day ++ ' ' ::
    pad2 (hour12 d.hour) ++ ':' :: pad2 d.minute ++ ' ' ::
    (if 12 ≤ d.hour then ['P', 'M'] else ['A', 'M'])

/-- `JobScraper.convertToActualDateTime(timeString)` with the hidden
`new Date()` passed explicitly as `now`.  Unknown or unparseable tokens
format `now` verbatim; minutes, hours and days are subtracted on the
respective branch.  (The method also stores `timeString` into
`this._lastTimeString`; the pipeline model threads that value alongside.) -/
def convertToActualDateTime (now : DateTime) (timeString : List Char) : List Char :=
  if timeString.isEmpty then []
  else
    match findUnitMatch convertUnits (jsToLower timeString) with
    | none => formatDateTime now
    | some (number, unit) =>
      if jsIncludes unit ['m', 'i', 'n', 'u', 't', 'e'] || jsIncludes unit ['m', 'i', 'n'] then
        formatDateTime (subMinutes now number)
      else if jsIncludes unit ['h', 'o', 'u', 'r'] then
        formatDateTime (subHours now number)
      else if jsIncludes unit ['d', 'a', 'y'] then
        formatDateTime (subDays now number)
      else formatDateTime now

/-- The parsing stage of `JobScraper.convertToISOString(dateTimeString)`:
split on spaces into date, time and meridiem, split those on `-` and `:`,
and rebuild the 24-hour local clock time that the source feeds to
`new Date(year, month - 1, day, hour24, minutes)`.  (The subsequent
`toISOString` applies the pipeline's fixed zone offset and is not part of
the round-trip property.)  `none` models the `catch` branch: a string with
too few components makes the source throw and return `null`. -/
def convertToISOLocalParse (s : List Char) : Option DateTime :=
  match jsSplit ' ' s with
  | datePart :: timePart :: ampm :: _ =>
    match jsSplit '-' datePart, jsSplit ':' timePart with
    | year :: month :: day :: _, hours :: minutes :: _ =>
      let h := parseDigits hours
      let hour24 :=
        if ampm = ['P', 'M'] && h ≠ 12 then h + 12
        else if ampm = ['A', 'M'] && h = 12 then 0
        else h
      some ⟨parseDigits year, parseDigits month, parseDigits day, hour24, parseDigits minutes⟩
    | _, _ => none
  | _ => none

/-! ## Data model -/

/-- A service descriptor from `services.json`; strings as `List Char`.
`validationWords` is `none` when the key is absent or not an array (the
source guards with `Array.isArray`); the entries are strings (the source
skips non-string entries with a `typeof` check, so only strings are
modelled).  `maxHoursWindow` appears in descriptor records but is never read
by the scraper. -/
structure ServiceDescriptor where
  name : List Char
  display_name : List Char
  table : List Char
  enabled : Bool
  validationWords : Option (List (List Char))
  maxHoursWindow : Option Int
deriving DecidableEq

/-- A candidate job element, represented by the outcome of each field's
selector cascade: the first non-empty trimmed `textContent` among the
field's selectors, `[]` when every selector misses.  No claim under
verification distinguishes deeper DOM structure of a container. -/
structure Element where
  titleText : List Char
  companyText : List Char
  locationText : List Char
deriving DecidableEq

/-- The job record built by `extractJobDataFromElement` (the `scraped_at`
wall-clock field is omitted: no claim mentions it). -/
structure JobData where
  service : List Char
  service_display_name : List Char
  title : List Char
  company : List Char
  city : List Char
  state : List Char
  location : List Char
  posted_date : List Char
  found_time : List Char
deriving DecidableEq

/-- `CONFIG.maxJobs`. -/
def CONFIG_maxJobs : Nat := 100

/-! ## Location parser -/

/-- `JobScraper.parseLocation(locationString)`:

    const cleanLocation = locationString.split('•')[0].trim();
    const parts = cleanLocation.split(',').map(p => p.trim());
    if (parts.length >= 2) return { city: parts[0], state: parts[1] };
    return { city: cleanLocation, state: '' };

Returned as the pair `(city, state)`. -/
def parseLocation (locationString : List Char) : List Char × List Char :=
  let cleanLocation := jsTrim ((jsSplit '•' locationString).headD [])
  let parts := (jsSplit ',' cleanLocation).map jsTrim
  match parts with
  | p0 :: p1 :: _ => (p0, p1)
  | _ => (cleanLocation, [])

/-- Modelled from the spec (§4.1), for comparison with `parseLocation`:
"strips everything after the first such separator, then splits the
remainder on commas: first segment is `city`, second (if present) is
`state`; fewer segments means `state` is empty." -/
def parseLocationSpec (locationString : List Char) : List Char × List Char :=
  let beforeBullet := locationString.takeWhile (fun c => c ≠ '•')
  let clean := jsTrim beforeBullet
  match (jsSplit ',' clean).map jsTrim with
  | c :: st :: _ => (c, st)
  | [c] => (c, [])
  | [] => (clean, [])

/-! ## Extraction and validation -/

/-- `JobScraper.extractJobDataFromElement(jobElement, service)`.  The hidden
instance state is passed explicitly: `availableTimes`/`timeIndex` are the
document's token pool and cursor (`this._availableTimes`, `this._timeIndex`),
and the result carries the advanced cursor and the token stored into
`this._lastTimeString`.  Field extraction is the element's cascade outcome;
`city`/`state` are filled from `parseLocation` only when a location was
found.  The time branch mirrors lines 264–279 of the source: the next
unconsumed pool token, or the fixed fallback once the pool is exhausted
(the fallback branch does not advance the cursor). -/
def extractJobDataFromElement (now : DateTime) (service : ServiceDescriptor)
    (availableTimes : List (List Char)) (timeIndex : Nat) (el : Element) :
    JobData × Nat × List Char :=
  let title := el.titleText
  let company := el.companyText
  let location := el.locationText
  let cityState := if location.isEmpty then ([], []) else parseLocation location
  let mk : List Char → JobData := fun t =>
    { service := service.name
      service_display_name := service.display_name
      title := title
      company := company
      city := cityState.1
      state := cityState.2
      location := location
      posted_date := convertToActualDateTime now t
      found_time := t }
  if h : timeIndex < availableTimes.length then
    let timeString := availableTimes.get ⟨timeIndex, h⟩
    (mk timeString, timeIndex + 1, timeString)
  else
    (mk fallbackTime, timeIndex, fallbackTime)

/-- `JobScraper.isValidJobData(jobData, service)`.  `maxHoursWindow` is the
instance threshold and `lastTimeString` the instance field
`this._lastTimeString` (at every call site it equals the `found_time` just
assigned to `jobData`).  Mirrors:

    const hasRequiredData = jobData.title && jobData.title.length > 3 &&
        jobData.title !== 'Jobs' && !jobData.title.includes('Search') &&
        (jobData.company || jobData.location);
    const isWithin6Hours = this.isWithin6Hours(jobData.posted_date);
    let passesValidationWords = true;
    if (service && Array.isArray(service.validationWords) && ...length > 0) {
      const lowerTitle = (jobData.title || '').toLowerCase();
      passesValidationWords = service.validationWords.some(word =>
        typeof word === 'string' && lowerTitle.includes(word.toLowerCase()));
    }
    return hasRequiredData && isWithin6Hours && passesValidationWords;

where `isWithin6Hours(s)` is
`!s ? false : (this._lastTimeString ? this.isTimeWithin6Hours(this._lastTimeString) : false)`. -/
def isValidJobData (maxHoursWindow : Nat) (jobData : JobData)
    (service : ServiceDescriptor) (lastTimeString : List Char) : Bool :=
  let hasRequiredData :=
    !jobData.title.isEmpty && decide (3 < jobData.title.length) &&
    decide (jobData.title ≠ ('J' :: 'o' :: 'b' :: 's' :: [])) &&
    !jsIncludes jobData.title ('S' :: 'e' :: 'a' :: 'r' :: 'c' :: 'h' :: []) &&
    (!jobData.company.isEmpty || !jobData.location.isEmpty)
  let isWithin6 :=
    if jobData.posted_date.isEmpty then false
    else if lastTimeString.isEmpty then false
    else isTimeWithin6Hours maxHoursWindow lastTimeString
  let passesValidationWords :=
    match service.validationWords with
    | some ws =>
      if ws.isEmpty then true
      else ws.any (fun w => jsIncludes (jsToLower jobData.title) (jsToLower w))
    | none => true
  hasRequiredData && isWithin6 && passesValidationWords

/-- Modelled from the spec (§4.4), for comparison: "`thresholdHours` is
supplied by the service descriptor (default applies when unset or
non-positive)" — the filter the specification describes, keyed on the
descriptor's own `maxHoursWindow`. -/
def isRecentSpec (service : ServiceDescriptor) (token : List Char) : Bool :=
  isTimeWithin6Hours (scraperMaxHoursWindow service.maxHoursWindow) token

/-! ## Per-document pipeline -/

/-- The selector-cascade over job-container groups: the first selector whose
`querySelectorAll` is non-empty wins; if every group is empty the result is
empty (lines 130–137 of the source). -/
def findContainers : List (List Element) → List Element
  | [] => []
  | g :: gs => if g.isEmpty then findContainers gs else g

/-- The extraction loop over the processed containers, threading the token
cursor (starting value supplied by the caller; `parseJobsFromHTML` resets it
to 0 per document). -/
def extractJobsAux (now : DateTime) (service : ServiceDescriptor)
    (availableTimes : List (List Char)) : List Element → Nat → List JobData
  | [], _ => []
  | el :: els, timeIndex =>
    let r := extractJobDataFromElement now service availableTimes timeIndex el
    r.1 :: extractJobsAux now service availableTimes els r.2.1

/-- `JobScraper.parseJobsFromHTML(html, service)`.  `availableTimes` is
`html.match(timeRegex) || []` (scanned from the raw document text before any
DOM work); `domParse` is `none` when `new JSDOM(html)` or the query phase
throws (the outer `catch` returns `{ jobs: [], totalFound: 0 }`), otherwise
the container groups produced by the three job selectors in order.

The source interleaves extraction and validation inside one `for` loop;
validation is pure, reads the just-written `_lastTimeString` (equal to the
extracted record's `found_time`), and never touches the cursor, so
extracting the first `min(length, CONFIG.maxJobs)` containers and then
filtering is the same computation.  The per-container `catch` never fires in
the model because extraction is total. -/
def parseJobsFromHTML (maxHoursWindow : Nat) (now : DateTime)
    (availableTimes : List (List Char)) (domParse : Option (List (List Element)))
    (service : ServiceDescriptor) : List JobData × Nat :=
  match domParse with
  | none => ([], 0)
  | some groups =>
    let jobElements := findContainers groups
    if jobElements.isEmpty then ([], 0)
    else
      let maxJobs := min jobElements.length CONFIG_maxJobs
      let processed := extractJobsAux now service availableTimes (jobElements.take maxJobs) 0
      (processed.filter (fun j => isValidJobData maxHoursWindow j service j.found_time),
        jobElements.length)

/-! ## Fingerprint and dedup -/

/-- UTF-8 bytes of one code point (`Buffer.from` encodes in UTF-8). -/
def utf8Bytes (c : Char) : List Nat :=
  let n := c.toNat
  if n < 128 then [n]
  else if n < 2048 then [192 + n / 64, 128 + n % 64]
  else if n < 65536 then [224 + n / 4096, 128 + (n / 64) % 64, 128 + n % 64]
  else [240 + n / 262144, 128 + (n / 4096) % 64, 128 + (n / 64) % 64, 128 + n % 64]

def utf8Encode : List Char → List Nat
  | [] => []
  | c :: cs => utf8Bytes c ++ utf8Encode cs

def base64Table : List Char :=
  ("ABCDEFGHIJKLMNOPQRSTUVWXYZabcdefghijklmnopqrstuvwxyz0123456789+/").data

def b64Char (n : Nat) : Char := base64Table.getD n 'A'

/-- Standard base64 of a byte sequence (`Buffer.prototype.toString('base64')`):
3-byte groups become 4 alphabet characters; a trailing group of 1 or 2 bytes
is padded with `=`. -/
def base64Encode : List Nat → List Char
  | b1 :: b2 :: b3 :: rest =>
    b64Char (b1 / 4) :: b64Char (b1 % 4 * 16 + b2 / 16) ::
      b64Char (b2 % 16 * 4 + b3 / 64) :: b64Char (b3 % 64) :: base64Encode rest
  | [b1, b2] => [b64Char (b1 / 4), b64Char (b1 % 4 * 16 + b2 / 16), b64Char (b2 % 16 * 4), '=']
  | [b1] => [b64Char (b1 / 4), b64Char (b1 % 4 * 16), '=', '=']
  | [] => []

/-- The dash-joined content `` `${job.title}-${job.location}-${job.service}` ``. -/
def fingerprintData (job : JobData) : List Char :=
  job.title ++ '-' :: job.location ++ '-' :: job.service

/-- `JobScraper.generateFingerprint(job)`:
`Buffer.from(data).toString('base64').substring(0, 32)`. -/
def generateFingerprint (job : JobData) : List Char :=
  (base64Encode (utf8Encode (fingerprintData job))).take 32

/-- One row of the batch handed to the store (`supabaseJobs` mapping);
`source_url` is the constant `null` and is omitted.  Only `fingerprint`
drives dedup; the remaining payload is carried opaquely. -/
structure SupabaseJob where
  title : List Char
  job_name : List Char
  posted_at : Option (List Char)
  location : List Char
  city : List Char
  state : List Char
  fingerprint : List Char
  found_time : Option (List Char)
deriving DecidableEq

instance : Nonempty SupabaseJob := ⟨⟨[], [], none, [], [], [], [], none⟩⟩

/-- One step of the dedup loop in `insertJobsToSupabase`:
`if (!fingerprintToJob.has(row.fingerprint)) fingerprintToJob.set(row.fingerprint, row)`.
A JavaScript `Map` is modelled as an association list in insertion order,
which is exactly the order `Map.prototype.values` iterates. -/
def mapSetIfAbsent (m : List (List Char × SupabaseJob)) (row : SupabaseJob) :
    List (List Char × SupabaseJob) :=
  if m.any (fun e => e.1 = row.fingerprint) then m else m ++ [(row.fingerprint, row)]

/-- The batch dedup performed before the persistence call:
`Array.from(fingerprintToJob.values())` after the insertion loop. -/
def dedupBatch (rows : List SupabaseJob) : List SupabaseJob :=
  (rows.foldl mapSetIfAbsent []).map (fun e => e.2)

/-- Modelled from the spec (§4.6), for comparison: "keeps the first
occurrence (by original document order) of each fingerprint within one batch
and drops later duplicates". -/
def keepFirstByFingerprint : List SupabaseJob → List SupabaseJob
  | [] => []
  | r :: rs =>
    r :: keepFirstByFingerprint (rs.filter (fun s => s.fingerprint ≠ r.fingerprint))
  termination_by l => l.length
  decreasing_by
    simp only [List.length_cons]
    exact Nat.lt_succ_of_le (List.length_filter_le _ _)

/-! ## Digit-string lemmas -/

lemma natDigitsAux_irrel : ∀ f1 f2 n : Nat, n < f1 → n < f2 →
    natDigitsAux f1 n = natDigitsAux f2 n := by
  intro f1
  induction f1 with
  | zero => omega
  | succ f ih =>
    intro f2 n h1 h2
    cases f2 with
    | zero => omega
    | succ f2 =>
      rw [natDigitsAux, natDigitsAux]
      split
      · rfl
      · rw [ih f2 (n / 10)
          (by have : n / 10 < n := Nat.div_lt_self (by omega) (by norm_num); omega)
          (by have : n / 10 < n := Nat.div_lt_self (by omega) (by norm_num); omega)]

lemma natDigits_eq (n : Nat) :
    natDigits n = if n < 10 then [digitChar n]
      else natDigits (n / 10) ++ [digitChar (n % 10)] := by
  rw [natDigits, natDigitsAux]
  split
  · rfl
  · rw [natDigits, natDigitsAux_irrel n (n / 10 + 1) (n / 10)
      (by have : n / 10 < n := Nat.div_lt_self (by omega) (by norm_num); omega)
      (by omega)]

lemma digitChar_isDigit (d : Nat) (h : d < 10) : isDigitChar (digitChar d) = true := by
  interval_cases d <;> decide

lemma digitChar_toLower (d : Nat) (h : d < 10) : Char.toLower (digitChar d) = digitChar d := by
  interval_cases d <;> decide

lemma digitVal_digitChar (d : Nat) (h : d < 10) : digitVal (digitChar d) = d := by
  interval_cases d <;> decide

lemma natDigits_ne_nil (n : Nat) : natDigits n ≠ [] := by
  rw [natDigits_eq]
  split <;> simp

lemma natDigits_all_digits (n : Nat) : ∀ c ∈ natDigits n, isDigitChar c = true := by
  induction n using Nat.strong_induction_on with
  | _ n ih =>
    rw [natDigits_eq]
    split
    next h =>
      intro c hc
      simp at hc
      subst hc
      exact digitChar_isDigit n h
    next h =>
      intro c hc
      simp at hc
      rcases hc with hc | hc
      · exact ih (n / 10) (Nat.div_lt_self (by omega) (by norm_num)) c hc
      · subst hc
        exact digitChar_isDigit (n % 10) (Nat.mod_lt _ (by norm_num))

lemma parseDigits_append (a : List Char) (c : Char) :
    parseDigits (a ++ [c]) = 10 * parseDigits a + digitVal c := by
  simp [parseDigits, List.foldl_append]
  omega

lemma parseDigits_natDigits (n : Nat) : parseDigits (natDigits n) = n := by
  induction n using Nat.strong_induction_on with
  | _ n ih =>
    rw [natDigits_eq]
    split
    next h => simp [parseDigits, digitVal_digitChar n h]
    next h =>
      rw [parseDigits_append, ih (n / 10) (Nat.div_lt_self (by omega) (by norm_num)),
        digitVal_digitChar (n % 10) (Nat.mod_lt _ (by norm_num))]
      omega

lemma jsToLower_natDigits (n : Nat) : jsToLower (natDigits n) = natDigits n := by
  induction n using Nat.strong_induction_on with
  | _ n ih =>
    rw [natDigits_eq]
    split
    next h => simp [jsToLower, digitChar_toLower n h]
    next h =>
      simp only [jsToLower, List.map_append]
      rw [show (natDigits (n / 10)).map Char.toLower = jsToLower (natDigits (n / 10)) from rfl,
        ih (n / 10) (Nat.div_lt_self (by omega) (by norm_num))]
      simp [digitChar_toLower (n % 10) (Nat.mod_lt _ (by norm_num))]

/-! ## Regex scan lemmas -/

lemma takeWhile_all_append (p : Char → Bool) (ds u : List Char)
    (hd : ∀ c ∈ ds, p c = true) (hu : ∀ c, u.head? = some c → p c = false) :
    (ds ++ u).takeWhile p = ds := by
  induction ds with
  | nil =>
    cases u with
    | nil => rfl
    | cons c cs => simp [List.takeWhile_cons, hu c rfl]
  | cons d ds ih =>
    have hpd : p d = true := hd d (by simp)
    simp [List.takeWhile_cons, hpd, ih (fun c hc => hd c (by simp [hc]))]

lemma tryMatchAt_digits (units : List (List Char)) (ds u : List Char) (hne : ds ≠ [])
    (hd : ∀ c ∈ ds, isDigitChar c = true)
    (hu : ∀ c, u.head? = some c → isDigitChar c = false) :
    tryMatchAt units (ds ++ u) = (unitCapture units u).map (fun r => (parseDigits ds, r)) := by
  unfold tryMatchAt
  rw [takeWhile_all_append _ _ _ hd hu]
  simp only [List.isEmpty_iff]
  rw [if_neg hne, List.drop_left]
  cases unitCapture units u <;> simp

lemma findUnitMatch_of_tryMatchAt (units : List (List Char)) (cs : List Char)
    (r : Nat × List Char) (hne : cs ≠ []) (h : tryMatchAt units cs = some r) :
    findUnitMatch units cs = some r := by
  cases cs with
  | nil => exact absurd rfl hne
  | cons c cs => rw [findUnitMatch, h]

lemma findUnitMatch_append_none (units : List (List Char)) (ds u : List Char)
    (hd : ∀ c ∈ ds, isDigitChar c = true)
    (hu : ∀ c, u.head? = some c → isDigitChar c = false)
    (hcap : unitCapture units u = none)
    (hnu : findUnitMatch units u = none) :
    findUnitMatch units (ds ++ u) = none := by
  induction ds with
  | nil => exact hnu
  | cons d ds ih =>
    have hds : ∀ c ∈ ds, isDigitChar c = true := fun c hc => hd c (List.mem_cons_of_mem _ hc)
    have htry : tryMatchAt units ((d :: ds) ++ u) = none := by
      rw [tryMatchAt_digits units (d :: ds) u (by simp) hd hu, hcap]
      rfl
    simp only [List.cons_append] at htry ⊢
    rw [findUnitMatch, htry]
    exact ih hds

lemma jsToLower_timeToken (n : Nat) (u : List Char) (hu : jsToLower u = u) :
    jsToLower (timeToken n u) = timeToken n u := by
  simp only [timeToken, jsToLower, List.map_append]
  rw [show (natDigits n).map Char.toLower = jsToLower (natDigits n) from rfl,
    jsToLower_natDigits, show u.map Char.toLower = jsToLower u from rfl, hu]

lemma timeToken_ne_nil (n : Nat) (u : List Char) : timeToken n u ≠ [] := by
  simp [timeToken, natDigits_ne_nil]

lemma findUnitMatch_timeToken (units : List (List Char)) (n : Nat) (u r : List Char)
    (hu : ∀ c, u.head? = some c → isDigitChar c = false)
    (hcap : unitCapture units u = some r) :
    findUnitMatch units (timeToken n u) = some (n, r) := by
  apply findUnitMatch_of_tryMatchAt units _ _ (timeToken_ne_nil n u)
  rw [timeToken, tryMatchAt_digits units _ _ (natDigits_ne_nil n) (natDigits_all_digits n) hu,
    hcap, parseDigits_natDigits]
  rfl

lemma findUnitMatch_timeToken_none (units : List (List Char)) (n : Nat) (u : List Char)
    (hu : ∀ c, u.head? = some c → isDigitChar c = false)
    (hcap : unitCapture units u = none)
    (hnu : findUnitMatch units u = none) :
    findUnitMatch units (timeToken n u) = none := by
  rw [timeToken]
  exact findUnitMatch_append_none units _ _ (natDigits_all_digits n) hu hcap hnu

/-- Evaluate the recency filter on a well-formed token whose unit capture is
known. -/
lemma isTimeWithin6Hours_token (T n : Nat) (u r : List Char)
    (hlu : jsToLower u = u)
    (hu : ∀ c, u.head? = some c → isDigitChar c = false)
    (hcap : unitCapture recencyUnits u = some r) :
    isTimeWithin6Hours T (timeToken n u) =
      (if jsIncludes r ['m', 'i', 'n', 'u', 't', 'e'] || jsIncludes r ['m', 'i', 'n'] then true
       else if jsIncludes r ['h', 'o', 'u', 'r'] then decide (n ≤ T)
       else false) := by
  rw [isTimeWithin6Hours, if_neg (by simp [timeToken_ne_nil]), jsToLower_timeToken n u hlu,
    findUnitMatch_timeToken recencyUnits n u r hu hcap]

/-- Evaluate the recency filter on a token whose unit phrase the regex does
not match anywhere. -/
lemma isTimeWithin6Hours_token_none (T n : Nat) (u : List Char)
    (hlu : jsToLower u = u)
    (hu : ∀ c, u.head? = some c → isDigitChar c = false)
    (hcap : unitCapture recencyUnits u = none)
    (hnu : findUnitMatch recencyUnits u = none) :
    isTimeWithin6Hours T (timeToken n u) = false := by
  rw [isTimeWithin6Hours, if_neg (by simp [timeToken_ne_nil]), jsToLower_timeToken n u hlu,
    findUnitMatch_timeToken_none recencyUnits n u hu hcap hnu]

/-- C1: for every time token and threshold `T`, `isTimeWithin6Hours` accepts
a minutes token regardless of magnitude; accepts an hours token iff its value
is `≤ T` (so "`T` hours ago" is recent and "`T+1` hours ago" is not); and
rejects days tokens, weeks tokens and unparseable tokens. -/
theorem recencyFilter_unit_policy (T n : Nat) :
    isTimeWithin6Hours T (timeToken n (" minutes ago").data) = true
    ∧ isTimeWithin6Hours T (timeToken n (" minute ago").data) = true
    ∧ isTimeWithin6Hours T (timeToken n (" hours ago").data) = decide (n ≤ T)
    ∧ isTimeWithin6Hours T (timeToken n (" hour ago").data) = decide (n ≤ T)
    ∧ isTimeWithin6Hours T (timeToken T (" hours ago").data) = true
    ∧ isTimeWithin6Hours T (timeToken (T + 1) (" hours ago").data) = false
    ∧ isTimeWithin6Hours T (timeToken n (" days ago").data) = false
    ∧ isTimeWithin6Hours T (timeToken n (" day ago").data) = false
    ∧ isTimeWithin6Hours T (timeToken n (" weeks ago").data) = false
    ∧ (∀ s : List Char, findUnitMatch recencyUnits (jsToLower s) = none →
        isTimeWithin6Hours T s = false) := by
  have hmin : jsIncludes ['m', 'i', 'n', 'u', 't', 'e'] ['m', 'i', 'n', 'u', 't', 'e'] = true := by
    decide
  have hhm : jsIncludes ['h', 'o', 'u', 'r'] ['m', 'i', 'n', 'u', 't', 'e'] = false := by decide
  have hhm2 : jsIncludes ['h', 'o', 'u', 'r'] ['m', 'i', 'n'] = false := by decide
  have hhh : jsIncludes ['h', 'o', 'u', 'r'] ['h', 'o', 'u', 'r'] = true := by decide
  refine ⟨?_, ?_, ?_, ?_, ?_, ?_, ?_, ?_, ?_, ?_⟩
  · rw [isTimeWithin6Hours_token T n (" minutes ago").data ['m', 'i', 'n', 'u', 't', 'e']
      (by decide) (by decide) (by decide)]
    simp [hmin]
  · rw [isTimeWithin6Hours_token T n (" minute ago").data ['m', 'i', 'n', 'u', 't', 'e']
      (by decide) (by decide) (by decide)]
    simp [hmin]
  · rw [isTimeWithin6Hours_token T n (" hours ago").data ['h', 'o', 'u', 'r']
      (by decide) (by decide) (by decide)]
    simp [hhm, hhm2, hhh]
  · rw [isTimeWithin6Hours_token T n (" hour ago").data ['h', 'o', 'u', 'r']
      (by decide) (by decide) (by decide)]
    simp [hhm, hhm2, hhh]
  · rw [isTimeWithin6Hours_token T T (" hours ago").data ['h', 'o', 'u', 'r']
      (by decide) (by decide) (by decide)]
    simp [hhm, hhm2, hhh]
  · rw [isTimeWithin6Hours_token T (T + 1) (" hours ago").data ['h', 'o', 'u', 'r']
      (by decide) (by decide) (by decide)]
    simp [hhm, hhm2, hhh]
  · exact isTimeWithin6Hours_token_none T n (" days ago").data
      (by decide) (by decide) (by decide) (by decide)
  · exact isTimeWithin6Hours_token_none T n (" day ago").data
      (by decide) (by decide) (by decide) (by decide)
  · exact isTimeWithin6Hours_token_none T n (" weeks ago").data
      (by decide) (by decide) (by decide) (by decide)
  · intro s hs
    rw [isTimeWithin6Hours, hs]
    split <;> rfl

/-- C1 witness: the policy at threshold 6 on the concrete tokens
"59 minutes ago", "6 hours ago", "7 hours ago", "2 days ago" and the
unparseable "yesterday". -/
theorem recencyFilter_unit_policy_witness :
    isTimeWithin6Hours 6 (timeToken 59 (" minutes ago").data) = true
    ∧ isTimeWithin6Hours 6 (timeToken 6 (" hours ago").data) = true
    ∧ isTimeWithin6Hours 6 (timeToken 7 (" hours ago").data) = false
    ∧ isTimeWithin6Hours 6 (timeToken 2 (" days ago").data) = false
    ∧ isTimeWithin6Hours 6 ("yesterday").data = false :=
  ⟨(recencyFilter_unit_policy 6 59).1,
   (recencyFilter_unit_policy 6 6).2.2.2.2.1,
   (recencyFilter_unit_policy 6 6).2.2.2.2.2.1,
   (recencyFilter_unit_policy 6 2).2.2.2.2.2.2.1,
   (recencyFilter_unit_policy 6 0).2.2.2.2.2.2.2.2.2 ("yesterday").data (by decide)⟩

lemma extractJobDataFromElement_found_time (now : DateTime) (svc : ServiceDescriptor)
    (times : List (List Char)) (idx : Nat) (el : Element) :
    (extractJobDataFromElement now svc times idx el).1.found_time = times.getD idx fallbackTime := by
  rw [extractJobDataFromElement]
  split
  next h => simp [List.getD, List.getElem?_eq_getElem h]
  next h => simp [List.getD, List.getElem?_eq_none (by omega : times.length ≤ idx)]

lemma extractJobDataFromElement_idx (now : DateTime) (svc : ServiceDescriptor)
    (times : List (List Char)) (idx : Nat) (el : Element) :
    (extractJobDataFromElement now svc times idx el).2.1
      = if idx < times.length then idx + 1 else idx := by
  rw [extractJobDataFromElement]
  split
  next h => simp [h]
  next h => simp [h]

lemma extractJobsAux_found_times (now : DateTime) (svc : ServiceDescriptor)
    (times : List (List Char)) :
    ∀ (els : List Element) (idx : Nat),
      (extractJobsAux now svc times els idx).map (fun j => j.found_time)
        = (List.range els.length).map (fun i => times.getD (idx + i) fallbackTime) := by
  intro els
  induction els with
  | nil => intro idx; simp [extractJobsAux]
  | cons el els ih =>
    intro idx
    rw [extractJobsAux]
    simp only [List.map_cons, List.length_cons]
    rw [extractJobDataFromElement_found_time, extractJobDataFromElement_idx,
      List.range_succ_eq_map]
    simp only [List.map_cons, List.map_map, Nat.add_zero]
    congr 1
    rw [ih]
    apply List.map_congr_left
    intro i _
    simp only [Function.comp]
    by_cases h : idx < times.length
    · rw [if_pos h]
      congr 1
      omega
    · rw [if_neg h, List.getD_eq_default _ _ (by omega), List.getD_eq_default _ _ (by omega)]

lemma extractJobsAux_length (now : DateTime) (svc : ServiceDescriptor)
    (times : List (List Char)) :
    ∀ (els : List Element) (idx : Nat),
      (extractJobsAux now svc times els idx).length = els.length := by
  intro els
  induction els with
  | nil => intro idx; rfl
  | cons el els ih => intro idx; rw [extractJobsAux]; simp [ih]

/-- C2: time tokens are consumed positionally: the i-th processed container
receives the i-th pool token as `found_time`, and once the pool is exhausted
every further container receives the fixed fallback "3 hours ago"; a run of
3 containers over a 2-token pool yields exactly 3 assignments, the third
being the fallback. -/
theorem tokenPool_positional_assignment (now : DateTime) (svc : ServiceDescriptor)
    (times : List (List Char)) (els : List Element) :
    ((extractJobsAux now svc times els 0).map (fun j => j.found_time)
      = (List.range els.length).map (fun i => times.getD i fallbackTime))
    ∧ (extractJobsAux now svc times els 0).length = els.length
    ∧ ∀ (e1 e2 e3 : Element) (t1 t2 : List Char),
        (extractJobsAux now svc [t1, t2] [e1, e2, e3] 0).map (fun j => j.found_time)
          = [t1, t2, fallbackTime] := by
  refine ⟨?_, extractJobsAux_length now svc times els 0, ?_⟩
  · rw [extractJobsAux_found_times]
    simp
  · intro e1 e2 e3 t1 t2
    rw [extractJobsAux_found_times]
    rfl

lemma findContainers_all_empty : ∀ (groups : List (List Element)),
    (∀ g ∈ groups, g = []) → findContainers groups = [] := by
  intro groups h
  induction groups with
  | nil => rfl
  | cons g gs ih =>
    rw [findContainers, h g (by simp)]
    simpa using ih (fun g hg => h g (by simp [hg]))

/-- C8: an unparseable document, or one where every selector group matches
zero containers, makes `parseJobsFromHTML` return `{ jobs: [], totalFound: 0 }`
(the embedding is a total function: the source's outer catch is the `none`
branch, so no exception reaches the caller). -/
theorem emptyDocument_yields_empty (maxHoursWindow : Nat) (now : DateTime)
    (availableTimes : List (List Char)) (service : ServiceDescriptor) :
    parseJobsFromHTML maxHoursWindow now availableTimes none service = ([], 0)
    ∧ ∀ groups : List (List Element), (∀ g ∈ groups, g = []) →
        parseJobsFromHTML maxHoursWindow now availableTimes (some groups) service = ([], 0) := by
  refine ⟨rfl, ?_⟩
  intro groups h
  rw [parseJobsFromHTML]
  rw [findContainers_all_empty groups h]
  rfl

/-- C8 witness: the two failure shapes on concrete inputs. -/
theorem emptyDocument_yields_empty_witness :
    parseJobsFromHTML 6 ⟨2024, 1, 1, 12, 0⟩ [("2 hours ago").data] none
        ⟨("spark").data, ("Spark").data, ("spark_jobs").data, true, none, none⟩ = ([], 0)
    ∧ parseJobsFromHTML 6 ⟨2024, 1, 1, 12, 0⟩ [("2 hours ago").data] (some [[], [], []])
        ⟨("spark").data, ("Spark").data, ("spark_jobs").data, true, none, none⟩ = ([], 0) :=
  ⟨(emptyDocument_yields_empty 6 ⟨2024, 1, 1, 12, 0⟩ [("2 hours ago").data]
      ⟨("spark").data, ("Spark").data, ("spark_jobs").data, true, none, none⟩).1,
   (emptyDocument_yields_empty 6 ⟨2024, 1, 1, 12, 0⟩ [("2 hours ago").data]
      ⟨("spark").data, ("Spark").data, ("spark_jobs").data, true, none, none⟩).2
     [[], [], []] (by simp)⟩

/-- Unfolding of `parseJobsFromHTML` when the selector cascade finds
containers. -/
lemma parseJobsFromHTML_of_containers (maxHoursWindow : Nat) (now : DateTime)
    (availableTimes : List (List Char)) (groups : List (List Element))
    (service : ServiceDescriptor) (h : findContainers groups ≠ []) :
    parseJobsFromHTML maxHoursWindow now availableTimes (some groups) service =
      ((extractJobsAux now service availableTimes
          ((findContainers groups).take (min (findContainers groups).length CONFIG_maxJobs))
          0).filter (fun j => isValidJobData maxHoursWindow j service j.found_time),
        (findContainers groups).length) := by
  rw [parseJobsFromHTML]
  simp [List.isEmpty_iff, h]

/-- C10: at most `CONFIG.maxJobs = 100` containers are processed per
document: the returned jobs list never exceeds 100 entries, `totalFound`
reports the full container count, and appending containers beyond the first
100 leaves the jobs output unchanged while growing `totalFound`. -/
theorem maxJobs_caps_processing (maxHoursWindow : Nat) (now : DateTime)
    (availableTimes : List (List Char)) (groups : List (List Element))
    (service : ServiceDescriptor) :
    (parseJobsFromHTML maxHoursWindow now availableTimes (some groups) service).1.length
        ≤ CONFIG_maxJobs
    ∧ CONFIG_maxJobs = 100
    ∧ (findContainers groups ≠ [] →
        (parseJobsFromHTML maxHoursWindow now availableTimes (some groups) service).2
          = (findContainers groups).length)
    ∧ (∀ extra : List Element, CONFIG_maxJobs ≤ (findContainers groups).length →
        (parseJobsFromHTML maxHoursWindow now availableTimes
            (some [findContainers groups ++ extra]) service).1
          = (parseJobsFromHTML maxHoursWindow now availableTimes (some groups) service).1
        ∧ (parseJobsFromHTML maxHoursWindow now availableTimes
            (some [findContainers groups ++ extra]) service).2
          = (findContainers groups).length + extra.length) := by
  refine ⟨?_, rfl, ?_, ?_⟩
  · by_cases h : findContainers groups = []
    · rw [parseJobsFromHTML]
      simp [h]
    · rw [parseJobsFromHTML_of_containers _ _ _ _ _ h]
      refine le_trans (List.length_filter_le _ _) ?_
      rw [extractJobsAux_length, List.length_take]
      omega
  · intro h
    rw [parseJobsFromHTML_of_containers _ _ _ _ _ h]
  · intro extra h100
    have hne : findContainers groups ≠ [] := by
      intro hnil
      rw [hnil] at h100
      simp [CONFIG_maxJobs] at h100
    have hne2 : findContainers [findContainers groups ++ extra]
        = findContainers groups ++ extra := by
      rw [findContainers]
      rw [if_neg (by simp [List.isEmpty_iff]; intro hc _; exact hne hc)]
    have htake : (findContainers groups ++ extra).take
          (min (findContainers groups ++ extra).length CONFIG_maxJobs)
        = (findContainers groups).take
          (min (findContainers groups).length CONFIG_maxJobs) := by
      rw [List.length_append]
      rw [show min ((findContainers groups).length + extra.length) CONFIG_maxJobs
          = CONFIG_maxJobs by simp [CONFIG_maxJobs] at h100 ⊢; omega]
      rw [show min (findContainers groups).length CONFIG_maxJobs = CONFIG_maxJobs by
        simp [CONFIG_maxJobs] at h100 ⊢; omega]
      exact List.take_append_of_le_length h100
    have hcne : findContainers groups ++ extra ≠ [] := by
      intro hc
      exact hne (List.append_eq_nil.mp hc).1
    constructor
    · rw [parseJobsFromHTML_of_containers _ _ _ _ _ (by rw [hne2]; exact hcne),
        parseJobsFromHTML_of_containers _ _ _ _ _ hne]
      simp only [hne2, htake]
    · rw [parseJobsFromHTML_of_containers _ _ _ _ _ (by rw [hne2]; exact hcne)]
      simp [hne2]

/-- C10 witness: a document whose single selector group holds 100 containers
reports `totalFound = 100`, and appending one more container grows
`totalFound` to 101 (while the capped jobs output is unchanged per the
theorem). -/
theorem maxJobs_caps_processing_witness :
    (parseJobsFromHTML 6 ⟨2024, 1, 1, 12, 0⟩ []
        (some [List.replicate 100 (⟨[], [], []⟩ : Element)])
        ⟨("s").data, ("S").data, ("t").data, true, none, none⟩).2 = 100
    ∧ (parseJobsFromHTML 6 ⟨2024, 1, 1, 12, 0⟩ []
        (some [findContainers [List.replicate 100 (⟨[], [], []⟩ : Element)] ++ [⟨[], [], []⟩]])
        ⟨("s").data, ("S").data, ("t").data, true, none, none⟩).2 = 101 :=
  ⟨((maxJobs_caps_processing 6 ⟨2024, 1, 1, 12, 0⟩ []
      [List.replicate 100 (⟨[], [], []⟩ : Element)]
      ⟨("s").data, ("S").data, ("t").data, true, none, none⟩).2.2.1
      (by decide)).trans (by decide),
   (((maxJobs_caps_processing 6 ⟨2024, 1, 1, 12, 0⟩ []
      [List.replicate 100 (⟨[], [], []⟩ : Element)]
      ⟨("s").data, ("S").data, ("t").data, true, none, none⟩).2.2.2
      [⟨[], [], []⟩] (by decide)).2).trans (by decide)⟩

/-- C5: a candidate record (whose `posted_date` was filled by the extractor,
hence non-empty) is qualified iff structural completeness, recency of its
time token, and the optional keyword allowlist all hold; a record titled
exactly "Jobs" is always rejected. -/
theorem validator_three_predicates (maxHoursWindow : Nat) (job : JobData)
    (service : ServiceDescriptor) (hpd : job.posted_date ≠ []) :
    (isValidJobData maxHoursWindow job service job.found_time = true ↔
      ((job.title ≠ [] ∧ 3 < job.title.length
        ∧ job.title ≠ ('J' :: 'o' :: 'b' :: 's' :: [])
        ∧ jsIncludes job.title ('S' :: 'e' :: 'a' :: 'r' :: 'c' :: 'h' :: []) = false
        ∧ (job.company ≠ [] ∨ job.location ≠ []))
       ∧ isTimeWithin6Hours maxHoursWindow job.found_time = true
       ∧ (match service.validationWords with
          | some ws =>
            ws = [] ∨ ∃ w ∈ ws, jsIncludes (jsToLower job.title) (jsToLower w) = true
          | none => True)))
    ∧ ∀ j : JobData, j.title = ('J' :: 'o' :: 'b' :: 's' :: []) →
        isValidJobData maxHoursWindow j service j.found_time = false := by
  constructor
  · have hft : (if job.found_time.isEmpty then false
          else isTimeWithin6Hours maxHoursWindow job.found_time)
        = isTimeWithin6Hours maxHoursWindow job.found_time := by
      by_cases h : job.found_time.isEmpty
      · rw [if_pos h, isTimeWithin6Hours, if_pos h]
      · rw [if_neg h]
    rw [isValidJobData]
    simp only [List.isEmpty_iff.symm.ne, hpd]
    rw [if_neg (by simp [List.isEmpty_iff, hpd] : ¬job.posted_date.isEmpty = true), hft]
    cases hw : service.validationWords with
    | none =>
      simp [List.isEmpty_iff, Bool.and_eq_true, decide_eq_true_eq, and_assoc]
    | some ws =>
      by_cases hws : ws = []
      · subst hws
        simp [List.isEmpty_iff, Bool.and_eq_true, decide_eq_true_eq, and_assoc]
      · simp [List.isEmpty_iff, hws, Bool.and_eq_true, decide_eq_true_eq, and_assoc,
          List.any_eq_true]
  · intro j hj
    rw [isValidJobData]
    simp [hj]

/-- C5 witness: a structurally complete, recent record qualifies; the same
shape titled exactly "Jobs" is rejected even with company and location
present. -/
theorem validator_three_predicates_witness :
    isValidJobData 6
      ⟨("svc").data, ("Svc").data, ("Engineer").data, ("Acme").data, [], [],
        ("Austin").data, ("2024-01-01 10:00 AM").data, ("2 hours ago").data⟩
      ⟨("svc").data, ("Svc").data, ("t").data, true, none, none⟩
      ("2 hours ago").data = true
    ∧ isValidJobData 6
      ⟨("svc").data, ("Svc").data, ("Jobs").data, ("Acme").data, [], [],
        ("Austin").data, ("2024-01-01 10:00 AM").data, ("2 hours ago").data⟩
      ⟨("svc").data, ("Svc").data, ("t").data, true, none, none⟩
      ("2 hours ago").data = false :=
  ⟨(validator_three_predicates 6
      ⟨("svc").data, ("Svc").data, ("Engineer").data, ("Acme").data, [], [],
        ("Austin").data, ("2024-01-01 10:00 AM").data, ("2 hours ago").data⟩
      ⟨("svc").data, ("Svc").data, ("t").data, true, none, none⟩
      (by decide)).1.mpr
      ⟨⟨by decide, by decide, by decide, by decide, Or.inl (by decide)⟩, by decide, trivial⟩,
   (validator_three_predicates 6
      ⟨("svc").data, ("Svc").data, ("Engineer").data, ("Acme").data, [], [],
        ("Austin").data, ("2024-01-01 10:00 AM").data, ("2 hours ago").data⟩
      ⟨("svc").data, ("Svc").data, ("t").data, true, none, none⟩
      (by decide)).2
      ⟨("svc").data, ("Svc").data, ("Jobs").data, ("Acme").data, [], [],
        ("Austin").data, ("2024-01-01 10:00 AM").data, ("2 hours ago").data⟩
      (by decide)⟩

/-! ## Dedup lemmas -/

lemma keepFirstByFingerprint_nil : keepFirstByFingerprint [] = [] := by
  rw [keepFirstByFingerprint]

lemma keepFirstByFingerprint_cons (r : SupabaseJob) (rs : List SupabaseJob) :
    keepFirstByFingerprint (r :: rs)
      = r :: keepFirstByFingerprint (rs.filter (fun s => s.fingerprint ≠ r.fingerprint)) := by
  rw [keepFirstByFingerprint]

lemma foldl_mapSetIfAbsent (rows : List SupabaseJob) :
    ∀ acc : List (List Char × SupabaseJob),
      (rows.foldl mapSetIfAbsent acc).map (fun e => e.2)
        = acc.map (fun e => e.2)
          ++ keepFirstByFingerprint
              (rows.filter (fun r => decide (r.fingerprint ∉ acc.map (fun e => e.1)))) := by
  induction rows with
  | nil => intro acc; simp [keepFirstByFingerprint_nil]
  | cons r rs ih =>
    intro acc
    rw [List.foldl_cons]
    by_cases h : ∃ e ∈ acc, e.1 = r.fingerprint
    · have hmem : r.fingerprint ∈ acc.map (fun e => e.1) := by
        rcases h with ⟨e, he, hfp⟩
        exact List.mem_map.mpr ⟨e, he, hfp⟩
      have hset : mapSetIfAbsent acc r = acc := by
        rw [mapSetIfAbsent, if_pos]
        simp only [List.any_eq_true, decide_eq_true_eq]
        exact h
      rw [hset, ih acc, List.filter_cons_of_neg (by simpa using hmem)]
    · have hmem : r.fingerprint ∉ acc.map (fun e => e.1) := by
        intro hc
        rcases List.mem_map.mp hc with ⟨e, he, hfp⟩
        exact h ⟨e, he, hfp⟩
      have hset : mapSetIfAbsent acc r = acc ++ [(r.fingerprint, r)] := by
        rw [mapSetIfAbsent, if_neg]
        simp only [List.any_eq_true, decide_eq_true_eq]
        exact h
      rw [hset, ih (acc ++ [(r.fingerprint, r)])]
      rw [List.filter_cons_of_pos (by simpa using hmem)]
      rw [keepFirstByFingerprint_cons]
      simp only [List.map_append, List.map_cons, List.map_nil, List.append_assoc,
        List.cons_append, List.nil_append]
      congr 2
      congr 1
      rw [List.filter_filter]
      apply List.filter_congr
      intro s _
      by_cases h1 : s.fingerprint = r.fingerprint
      · simp [h1]
      · by_cases h2 : s.fingerprint ∈ acc.map (fun e => e.1) <;> simp [h1, h2]

lemma dedupBatch_eq_keepFirst (rows : List SupabaseJob) :
    dedupBatch rows = keepFirstByFingerprint rows := by
  rw [dedupBatch, foldl_mapSetIfAbsent rows []]
  simp only [List.map_nil, List.nil_append]
  congr 1
  apply List.filter_eq_self.mpr
  intro a _
  simp

lemma keepFirst_filter_comm (a : List Char) :
    ∀ (n : Nat) (l : List SupabaseJob), l.length ≤ n →
      keepFirstByFingerprint (l.filter (fun s => s.fingerprint ≠ a))
        = (keepFirstByFingerprint l).filter (fun s => s.fingerprint ≠ a) := by
  intro n
  induction n with
  | zero =>
    intro l hl
    rw [List.length_eq_zero.mp (Nat.le_zero.mp hl)]
    rw [List.filter_nil, keepFirstByFingerprint_nil, List.filter_nil]
  | succ n ih =>
    intro l hl
    cases l with
    | nil => rw [List.filter_nil, keepFirstByFingerprint_nil, List.filter_nil]
    | cons r rs =>
      simp only [List.length_cons, Nat.succ_le_succ_iff] at hl
      by_cases h : r.fingerprint = a
      · subst h
        rw [List.filter_cons_of_neg (by simp), keepFirstByFingerprint_cons,
          List.filter_cons_of_neg (by simp)]
        rw [← ih (rs.filter (fun s => s.fingerprint ≠ r.fingerprint))
          (le_trans (List.length_filter_le _ _) hl)]
        congr 1
        rw [List.filter_filter]
        apply List.filter_congr
        intro s _
        by_cases hs : s.fingerprint = r.fingerprint <;> simp [hs]
      · rw [List.filter_cons_of_pos (by simp [h]), keepFirstByFingerprint_cons,
          keepFirstByFingerprint_cons,
          List.filter_cons_of_pos (by simp [h])]
        congr 1
        rw [← ih (rs.filter (fun s => s.fingerprint ≠ r.fingerprint))
          (le_trans (List.length_filter_le _ _) hl)]
        rw [List.filter_filter, List.filter_filter]
        congr 1
        apply List.filter_congr
        intro s _
        rw [Bool.and_comm]

lemma keepFirst_idem :
    ∀ (n : Nat) (l : List SupabaseJob), l.length ≤ n →
      keepFirstByFingerprint (keepFirstByFingerprint l) = keepFirstByFingerprint l := by
  intro n
  induction n with
  | zero =>
    intro l hl
    rw [List.length_eq_zero.mp (Nat.le_zero.mp hl)]
    rw [keepFirstByFingerprint_nil, keepFirstByFingerprint_nil]
  | succ n ih =>
    intro l hl
    cases l with
    | nil => rw [keepFirstByFingerprint_nil, keepFirstByFingerprint_nil]
    | cons r rs =>
      simp only [List.length_cons, Nat.succ_le_succ_iff] at hl
      rw [keepFirstByFingerprint_cons, keepFirstByFingerprint_cons]
      congr 1
      rw [← keepFirst_filter_comm r.fingerprint n
        (rs.filter (fun s => s.fingerprint ≠ r.fingerprint))
        (le_trans (List.length_filter_le _ _) hl)]
      rw [show (rs.filter (fun s => s.fingerprint ≠ r.fingerprint)).filter
            (fun s => s.fingerprint ≠ r.fingerprint)
          = rs.filter (fun s => s.fingerprint ≠ r.fingerprint) by
        rw [List.filter_filter]
        apply List.filter_congr
        intro s _
        by_cases hs : s.fingerprint = r.fingerprint <;> simp [hs]]
      exact ih (rs.filter (fun s => s.fingerprint ≠ r.fingerprint))
        (le_trans (List.length_filter_le _ _) hl)

/-- C4: the batch dedup before the persistence call keeps exactly the first
occurrence of each fingerprint in original order (it coincides with the
spec-side `keepFirstByFingerprint`) and is idempotent. -/
theorem dedup_first_occurrence_idempotent (rows : List SupabaseJob) :
    dedupBatch rows = keepFirstByFingerprint rows
    ∧ dedupBatch (dedupBatch rows) = dedupBatch rows := by
  refine ⟨dedupBatch_eq_keepFirst rows, ?_⟩
  rw [dedupBatch_eq_keepFirst rows, dedupBatch_eq_keepFirst (keepFirstByFingerprint rows)]
  exact keepFirst_idem rows.length rows le_rfl

/-! ## Location parser lemmas -/

lemma jsSplit_ne_nil (sep : Char) (s : List Char) : jsSplit sep s ≠ [] := by
  cases s with
  | nil => simp [jsSplit]
  | cons c cs =>
    rw [jsSplit]
    cases h : jsSplit sep cs with
    | nil => simp
    | cons hd tl =>
      by_cases hc : c = sep <;> simp [hc]

lemma jsSplit_headD (sep : Char) (s : List Char) :
    (jsSplit sep s).headD [] = s.takeWhile (fun c => c ≠ sep) := by
  induction s with
  | nil => rfl
  | cons c cs ih =>
    rw [jsSplit]
    cases h : jsSplit sep cs with
    | nil => exact absurd h (jsSplit_ne_nil sep cs)
    | cons hd tl =>
      by_cases hc : c = sep
      · simp [hc, List.takeWhile_cons]
      · rw [h] at ih
        simp only [List.headD_cons] at ih
        rw [show (match hd :: tl with
              | [] => [[c]]
              | h :: t => if c = sep then [] :: h :: t else (c :: h) :: t)
            = if c = sep then [] :: hd :: tl else (c :: hd) :: tl from rfl]
        rw [if_neg hc]
        simp only [List.headD_cons]
        rw [List.takeWhile_cons, if_pos (by simpa using hc), ih]

lemma jsSplit_singleton (sep : Char) :
    ∀ (s p : List Char), jsSplit sep s = [p] → p = s := by
  intro s
  induction s with
  | nil =>
    intro p hp
    simp [jsSplit] at hp
    exact hp
  | cons c cs ih =>
    intro p hp
    rw [jsSplit] at hp
    cases h : jsSplit sep cs with
    | nil => exact absurd h (jsSplit_ne_nil sep cs)
    | cons hd tl =>
      rw [h] at hp
      by_cases hc : c = sep
      · simp [hc] at hp
      · simp only [hc, if_false, ite_false] at hp
        have h1 : p = c :: hd := by
          have := List.cons_eq_cons.mp hp
          exact this.1.symm
        have h2 : tl = [] := by
          have := List.cons_eq_cons.mp hp
          exact this.2
        subst h2
        rw [h1, ih hd h]

lemma dropWhile_jsTrim (s : List Char) :
    (jsTrim s).dropWhile isSpaceChar = jsTrim s := by
  have heq : jsTrim s
      = List.rdropWhile isSpaceChar (s.dropWhile isSpaceChar) := rfl
  rw [heq]
  apply List.dropWhile_eq_self_iff.mpr
  intro hl
  obtain ⟨t, ht⟩ := List.rdropWhile_prefix isSpaceChar (s.dropWhile isSpaceChar)
  have hA : 0 < (s.dropWhile isSpaceChar).length := by
    rw [← ht, List.length_append]
    omega
  have hpre : List.rdropWhile isSpaceChar (s.dropWhile isSpaceChar)
      <+: s.dropWhile isSpaceChar := List.rdropWhile_prefix _ _
  have hget : (List.rdropWhile isSpaceChar (s.dropWhile isSpaceChar)).get ⟨0, hl⟩
      = (s.dropWhile isSpaceChar).get ⟨0, hA⟩ := by
    simp only [List.get_eq_getElem]
    exact List.IsPrefix.getElem hpre hl
  rw [hget]
  exact List.dropWhile_get_zero_not isSpaceChar s hA

lemma jsTrim_idem (s : List Char) : jsTrim (jsTrim s) = jsTrim s := by
  have heq : ∀ u : List Char, jsTrim u
      = List.rdropWhile isSpaceChar (u.dropWhile isSpaceChar) := fun u => rfl
  rw [heq (jsTrim s), dropWhile_jsTrim, heq s]
  exact List.rdropWhile_idempotent _ _

/-- C9: the location parser strips everything after the first bullet, splits
the remainder on commas, and yields (first segment, second segment or empty):
it coincides with the spec-side description on every input, and on the two
spec examples. -/
theorem parseLocation_bullet_comma (s : List Char) :
    parseLocation s = parseLocationSpec s
    ∧ parseLocation ("Austin, TX • Remote").data = (("Austin").data, ("TX").data)
    ∧ parseLocation ("Remote").data = (("Remote").data, []) := by
  refine ⟨?_, by decide, by decide⟩
  simp only [parseLocation, parseLocationSpec]
  rw [jsSplit_headD]
  cases hp : (jsSplit ',' (jsTrim (s.takeWhile (fun c => c ≠ '•')))).map jsTrim with
  | nil => rfl
  | cons p0 rest =>
    cases rest with
    | nil =>
      cases hq : jsSplit ',' (jsTrim (s.takeWhile (fun c => c ≠ '•'))) with
      | nil => exact absurd hq (jsSplit_ne_nil _ _)
      | cons q qs =>
        rw [hq, List.map_cons] at hp
        have hqs : qs = [] := List.map_eq_nil_iff.mp (List.cons_eq_cons.mp hp).2
        subst hqs
        have hqc : q = jsTrim (s.takeWhile (fun c => c ≠ '•')) := jsSplit_singleton ',' _ q hq
        have hp0 : p0 = jsTrim (s.takeWhile (fun c => c ≠ '•')) := by
          rw [← (List.cons_eq_cons.mp hp).1, hqc, jsTrim_idem]
        rw [hp0]
    | cons p1 rest2 => rfl

/-- C6 counterexample: two descriptors that differ only in their declared
`maxHoursWindow` (2 vs 100 hours).  The spec-side per-descriptor filter
distinguishes them on the token "5 hours ago", but the code's validator
(whose threshold is the constructor's environment-derived
`scraperMaxHoursWindow`, here `MAX_HOURS = 6`) accepts the same record under
both descriptors: the descriptor's threshold is never consulted. -/
theorem descriptorThreshold_counterexample :
    isRecentSpec
      ⟨("svc").data, ("Svc").data, ("t").data, true, none, some 2⟩
      (("5 hours ago").data) = false
    ∧ isRecentSpec
      ⟨("svc").data, ("Svc").data, ("t").data, true, none, some 100⟩
      (("5 hours ago").data) = true
    ∧ isValidJobData (scraperMaxHoursWindow (some 6))
      ⟨("svc").data, ("Svc").data, ("Engineer").data, ("Acme").data, [], [],
        ("Austin").data, ("2024-01-01 10:00 AM").data, ("5 hours ago").data⟩
      ⟨("svc").data, ("Svc").data, ("t").data, true, none, some 2⟩
      (("5 hours ago").data) = true
    ∧ isValidJobData (scraperMaxHoursWindow (some 6))
      ⟨("svc").data, ("Svc").data, ("Engineer").data, ("Acme").data, [], [],
        ("Austin").data, ("2024-01-01 10:00 AM").data, ("5 hours ago").data⟩
      ⟨("svc").data, ("Svc").data, ("t").data, true, none, some 100⟩
      (("5 hours ago").data) = true := by
  refine ⟨by decide, by decide, by decide, by decide⟩

/-- C6 (amended): the window filter's threshold is the scraper-wide value
read from the `MAX_HOURS` environment setting in the constructor (default 6
when unset or non-positive); the descriptor's `maxHoursWindow` is never
read, so validation is invariant under changing every descriptor field
except `validationWords`. -/
theorem threshold_from_environment (envMaxHours : Option Int) (job : JobData)
    (d1 d2 : ServiceDescriptor) (lastTime : List Char)
    (hw : d1.validationWords = d2.validationWords) :
    isValidJobData (scraperMaxHoursWindow envMaxHours) job d1 lastTime
      = isValidJobData (scraperMaxHoursWindow envMaxHours) job d2 lastTime
    ∧ scraperMaxHoursWindow none = 6
    ∧ (∀ v : Int, v ≤ 0 → scraperMaxHoursWindow (some v) = 6)
    ∧ (∀ v : Int, 0 < v → scraperMaxHoursWindow (some v) = v.toNat) := by
  refine ⟨?_, rfl, ?_, ?_⟩
  · rw [isValidJobData, isValidJobData, hw]
  · intro v hv
    rw [scraperMaxHoursWindow, if_neg (by omega)]
  · intro v hv
    rw [scraperMaxHoursWindow, if_pos hv]

/-- C6 witness: the amended theorem at the counterexample's two descriptors
and at `MAX_HOURS` values `-3` (default applies) and `4`. -/
theorem threshold_from_environment_witness :
    isValidJobData (scraperMaxHoursWindow (some 6))
      ⟨("svc").data, ("Svc").data, ("Engineer").data, ("Acme").data, [], [],
        ("Austin").data, ("2024-01-01 10:00 AM").data, ("5 hours ago").data⟩
      ⟨("svc").data, ("Svc").data, ("t").data, true, none, some 2⟩
      (("5 hours ago").data)
      = isValidJobData (scraperMaxHoursWindow (some 6))
      ⟨("svc").data, ("Svc").data, ("Engineer").data, ("Acme").data, [], [],
        ("Austin").data, ("2024-01-01 10:00 AM").data, ("5 hours ago").data⟩
      ⟨("svc").data, ("Svc").data, ("t").data, true, none, some 100⟩
      (("5 hours ago").data)
    ∧ scraperMaxHoursWindow (some (-3)) = 6
    ∧ scraperMaxHoursWindow (some 4) = 4 :=
  ⟨(threshold_from_environment (some 6)
      ⟨("svc").data, ("Svc").data, ("Engineer").data, ("Acme").data, [], [],
        ("Austin").data, ("2024-01-01 10:00 AM").data, ("5 hours ago").data⟩
      ⟨("svc").data, ("Svc").data, ("t").data, true, none, some 2⟩
      ⟨("svc").data, ("Svc").data, ("t").data, true, none, some 100⟩
      (("5 hours ago").data) rfl).1,
   (threshold_from_environment (some 6)
      ⟨("svc").data, ("Svc").data, ("Engineer").data, ("Acme").data, [], [],
        ("Austin").data, ("2024-01-01 10:00 AM").data, ("5 hours ago").data⟩
      ⟨("svc").data, ("Svc").data, ("t").data, true, none, some 2⟩
      ⟨("svc").data, ("Svc").data, ("t").data, true, none, some 100⟩
      (("5 hours ago").data) rfl).2.2.1 (-3) (by norm_num),
   (threshold_from_environment (some 6)
      ⟨("svc").data, ("Svc").data, ("Engineer").data, ("Acme").data, [], [],
        ("Austin").data, ("2024-01-01 10:00 AM").data, ("5 hours ago").data⟩
      ⟨("svc").data, ("Svc").data, ("t").data, true, none, some 2⟩
      ⟨("svc").data, ("Svc").data, ("t").data, true, none, some 100⟩
      (("5 hours ago").data) rfl).2.2.2 4 (by norm_num)⟩

/-! ## Fingerprint lemmas -/

lemma base64Encode_take (n : Nat) :
    ∀ l : List Nat, (base64Encode l).take (4 * n) = (base64Encode (l.take (3 * n))).take (4 * n) := by
  induction n with
  | zero => intro l; simp
  | succ n ih =>
    intro l
    match l with
    | [] => rfl
    | [b1] =>
      rw [List.take_of_length_le (l := [b1]) (by simp; omega)]
    | [b1, b2] =>
      rw [List.take_of_length_le (l := [b1, b2]) (by simp; omega)]
    | b1 :: b2 :: b3 :: rest =>
      rw [show 3 * (n + 1) = 3 * n + 1 + 1 + 1 from by ring]
      simp only [List.take_succ_cons]
      rw [show base64Encode (b1 :: b2 :: b3 :: rest)
          = b64Char (b1 / 4) :: b64Char (b1 % 4 * 16 + b2 / 16) ::
            b64Char (b2 % 16 * 4 + b3 / 64) :: b64Char (b3 % 64) :: base64Encode rest from rfl,
        show base64Encode (b1 :: b2 :: b3 :: rest.take (3 * n))
          = b64Char (b1 / 4) :: b64Char (b1 % 4 * 16 + b2 / 16) ::
            b64Char (b2 % 16 * 4 + b3 / 64) :: b64Char (b3 % 64)
              :: base64Encode (rest.take (3 * n)) from rfl]
      rw [show 4 * (n + 1) = 4 * n + 1 + 1 + 1 + 1 from by ring]
      simp only [List.take_succ_cons]
      rw [ih rest]

/-- C3 counterexample: two records with identical 26-character titles and
identical locations but different service names receive the same
fingerprint — the base64 output is cut at 32 characters, i.e. at the first
24 bytes of `title-location-service`, so the differing service never enters
the key. -/
theorem fingerprint_collision_counterexample :
    generateFingerprint
      ⟨("svc1").data, ("S").data, ("abcdefghijklmnopqrstuvwxyz").data, [], [], [],
        ("X").data, [], []⟩
      = generateFingerprint
      ⟨("svc2").data, ("S").data, ("abcdefghijklmnopqrstuvwxyz").data, [], [], [],
        ("X").data, [], []⟩
    ∧ (⟨("svc1").data, ("S").data, ("abcdefghijklmnopqrstuvwxyz").data, [], [], [],
        ("X").data, [], []⟩ : JobData).service
      ≠ (⟨("svc2").data, ("S").data, ("abcdefghijklmnopqrstuvwxyz").data, [], [], [],
        ("X").data, [], []⟩ : JobData).service := by
  refine ⟨by decide, by decide⟩

/-- C3 (amended): `generateFingerprint` is a pure function of
`(title, location, service)` — equal triples always give the identical
string — but distinct triples need not differ: the key depends only on the
first 24 UTF-8 bytes of the dash-joined `title-location-service` (32 base64
characters), so records agreeing on that prefix collide. -/
theorem fingerprint_pure_function_of_triple (j1 j2 j : JobData)
    (ht : j1.title = j2.title) (hl : j1.location = j2.location)
    (hs : j1.service = j2.service) :
    generateFingerprint j1 = generateFingerprint j2
    ∧ generateFingerprint j
        = (base64Encode ((utf8Encode (fingerprintData j)).take 24)).take 32 := by
  constructor
  · rw [generateFingerprint, generateFingerprint, fingerprintData, fingerprintData,
      ht, hl, hs]
  · rw [generateFingerprint]
    exact base64Encode_take 8 (utf8Encode (fingerprintData j))

/-- C3 witness: the amended theorem at two records with an equal triple but
different companies, and the truncation identity at a concrete record. -/
theorem fingerprint_pure_function_of_triple_witness :
    generateFingerprint
      ⟨("svc").data, ("S").data, ("Engineer").data, ("Acme").data, [], [],
        ("Austin").data, [], []⟩
      = generateFingerprint
      ⟨("svc").data, ("S").data, ("Engineer").data, ("Zeta").data, [], [],
        ("Austin").data, [], []⟩
    ∧ generateFingerprint
      ⟨("svc").data, ("S").data, ("Engineer").data, ("Acme").data, [], [],
        ("Austin").data, [], []⟩
      = (base64Encode ((utf8Encode (fingerprintData
          ⟨("svc").data, ("S").data, ("Engineer").data, ("Acme").data, [], [],
            ("Austin").data, [], []⟩)).take 24)).take 32 :=
  ⟨(fingerprint_pure_function_of_triple
      ⟨("svc").data, ("S").data, ("Engineer").data, ("Acme").data, [], [],
        ("Austin").data, [], []⟩
      ⟨("svc").data, ("S").data, ("Engineer").data, ("Zeta").data, [], [],
        ("Austin").data, [], []⟩
      ⟨("svc").data, ("S").data, ("Engineer").data, ("Acme").data, [], [],
        ("Austin").data, [], []⟩ rfl rfl rfl).1,
   (fingerprint_pure_function_of_triple
      ⟨("svc").data, ("S").data, ("Engineer").data, ("Acme").data, [], [],
        ("Austin").data, [], []⟩
      ⟨("svc").data, ("S").data, ("Engineer").data, ("Zeta").data, [], [],
        ("Austin").data, [], []⟩
      ⟨("svc").data, ("S").data, ("Engineer").data, ("Acme").data, [], [],
        ("Austin").data, [], []⟩ rfl rfl rfl).2⟩

/-! ## Normalizer round-trip lemmas -/

lemma jsSplit_sep_cons (sep : Char) (b : List Char) :
    jsSplit sep (sep :: b) = [] :: jsSplit sep b := by
  rw [jsSplit]
  cases h : jsSplit sep b with
  | nil => exact absurd h (jsSplit_ne_nil sep b)
  | cons hd tl => simp

lemma jsSplit_append_sep (sep : Char) (a b : List Char) (ha : ∀ c ∈ a, c ≠ sep) :
    jsSplit sep (a ++ sep :: b) = a :: jsSplit sep b := by
  induction a with
  | nil => exact jsSplit_sep_cons sep b
  | cons c a ih =>
    have hca : ∀ x ∈ a, x ≠ sep := fun x hx => ha x (by simp [hx])
    have hc : c ≠ sep := ha c (by simp)
    rw [List.cons_append, jsSplit]
    rw [ih hca]
    simp [hc]

lemma jsSplit_no_sep (sep : Char) (a : List Char) (ha : ∀ c ∈ a, c ≠ sep) :
    jsSplit sep a = [a] := by
  induction a with
  | nil => rfl
  | cons c a ih =>
    have hca : ∀ x ∈ a, x ≠ sep := fun x hx => ha x (by simp [hx])
    have hc : c ≠ sep := ha c (by simp)
    rw [jsSplit, ih hca]
    simp [hc]

lemma ne_of_digit (ch sep : Char) (h : isDigitChar ch = true)
    (hsep : isDigitChar sep = false) : ch ≠ sep := by
  intro e
  rw [e, hsep] at h
  exact Bool.false_ne_true h

lemma pad2_all_digits (n : Nat) : ∀ c ∈ pad2 n, isDigitChar c = true := by
  intro c hc
  rw [pad2] at hc
  split at hc
  · rcases List.mem_cons.mp hc with hc | hc
    · rw [hc]; decide
    · exact natDigits_all_digits n c hc
  · exact natDigits_all_digits n c hc

lemma parseDigits_cons_zero (l : List Char) : parseDigits ('0' :: l) = parseDigits l := by
  rw [parseDigits, parseDigits, List.foldl_cons]
  congr 1

lemma parseDigits_pad2 (n : Nat) : parseDigits (pad2 n) = n := by
  rw [pad2]
  split
  · rw [parseDigits_cons_zero, parseDigits_natDigits]
  · rw [parseDigits_natDigits]

lemma formatDateTime_shape (d : DateTime) :
    formatDateTime d
      = (natDigits d.year ++ ('-' :: (pad2 d.month ++ ('-' :: pad2 d.day))))
        ++ (' ' :: ((pad2 (hour12 d.hour) ++ (':' :: pad2 d.minute))
        ++ (' ' :: (if 12 ≤ d.hour then ['P', 'M'] else ['A', 'M'])))) := by
  rw [formatDateTime]
  simp [List.append_assoc]

lemma localParse_format (d : DateTime) (h24 : d.hour < 24) :
    convertToISOLocalParse (formatDateTime d) = some d := by
  obtain ⟨y, mo, dd, h, mi⟩ := d
  simp only at h24
  have hdate : ∀ c ∈ natDigits y ++ ('-' :: (pad2 mo ++ ('-' :: pad2 dd))), c ≠ ' ' := by
    intro c hc
    simp only [List.mem_append, List.mem_cons] at hc
    rcases hc with hc | hc | hc | hc | hc
    · exact ne_of_digit c ' ' (natDigits_all_digits y c hc) (by decide)
    · rw [hc]; decide
    · exact ne_of_digit c ' ' (pad2_all_digits mo c hc) (by decide)
    · rw [hc]; decide
    · exact ne_of_digit c ' ' (pad2_all_digits dd c hc) (by decide)
  have htime : ∀ c ∈ pad2 (hour12 h) ++ (':' :: pad2 mi), c ≠ ' ' := by
    intro c hc
    simp only [List.mem_append, List.mem_cons] at hc
    rcases hc with hc | hc | hc
    · exact ne_of_digit c ' ' (pad2_all_digits (hour12 h) c hc) (by decide)
    · rw [hc]; decide
    · exact ne_of_digit c ' ' (pad2_all_digits mi c hc) (by decide)
  have hampm : ∀ c ∈ (if 12 ≤ h then ['P', 'M'] else ['A', 'M']), c ≠ ' ' := by
    split <;> decide
  have hy : ∀ c ∈ natDigits y, c ≠ '-' := fun c hc =>
    ne_of_digit c '-' (natDigits_all_digits y c hc) (by decide)
  have hmo : ∀ c ∈ pad2 mo, c ≠ '-' := fun c hc =>
    ne_of_digit c '-' (pad2_all_digits mo c hc) (by decide)
  have hdd : ∀ c ∈ pad2 dd, c ≠ '-' := fun c hc =>
    ne_of_digit c '-' (pad2_all_digits dd c hc) (by decide)
  have hh : ∀ c ∈ pad2 (hour12 h), c ≠ ':' := fun c hc =>
    ne_of_digit c ':' (pad2_all_digits (hour12 h) c hc) (by decide)
  have hmi : ∀ c ∈ pad2 mi, c ≠ ':' := fun c hc =>
    ne_of_digit c ':' (pad2_all_digits mi c hc) (by decide)
  rw [formatDateTime_shape]
  simp only
  rw [convertToISOLocalParse]
  rw [jsSplit_append_sep ' ' _ _ hdate, jsSplit_append_sep ' ' _ _ htime,
    jsSplit_no_sep ' ' _ hampm]
  simp only
  rw [jsSplit_append_sep '-' _ _ hy, jsSplit_append_sep '-' _ _ hmo,
    jsSplit_no_sep '-' _ hdd, jsSplit_append_sep ':' _ _ hh, jsSplit_no_sep ':' _ hmi]
  simp only
  rw [parseDigits_natDigits, parseDigits_pad2, parseDigits_pad2, parseDigits_pad2,
    parseDigits_pad2]
  by_cases hpm : 12 ≤ h
  · rw [if_pos hpm]
    simp only [Option.some.injEq, DateTime.mk.injEq]
    refine ⟨trivial, trivial, trivial, ?_, trivial⟩
    simp only [hour12]
    split_ifs <;> simp_all <;> omega
  · rw [if_neg hpm]
    simp only [Option.some.injEq, DateTime.mk.injEq]
    refine ⟨trivial, trivial, trivial, ?_, trivial⟩
    simp only [hour12]
    split_ifs <;> simp_all <;> omega

lemma subOneHour_hour_lt (d : DateTime) (h : d.hour < 24) : (subOneHour d).hour < 24 := by
  rw [subOneHour]
  split
  · simp only
    omega
  · simp only
    omega

lemma subHours_hour_lt (d : DateTime) (h : d.hour < 24) :
    ∀ n, (subHours d n).hour < 24
  | 0 => h
  | n + 1 => by
    rw [subHours]
    exact subOneHour_hour_lt _ (subHours_hour_lt d h n)

lemma convertToActualDateTime_2h (now : DateTime) :
    convertToActualDateTime now (("2 hours ago").data) = formatDateTime (subHours now 2) := by
  rw [convertToActualDateTime, if_neg (by decide),
    show jsToLower (("2 hours ago").data) = ("2 hours ago").data from by decide,
    show findUnitMatch convertUnits (("2 hours ago").data)
      = some (2, ['h', 'o', 'u', 'r']) from by decide]
  simp only
  rw [if_neg (by decide), if_pos (by decide)]

/-- C7: the local format `YYYY-MM-DD HH:MM AM/PM` round-trips: re-parsing a
formatted date (as `convertToISOString` does) recovers every component,
including the 12-hour wraparound (hours 0 and 12 both render as "12"); and
`convertToActualDateTime(now, "2 hours ago")` formats exactly the clock time
two hours before `now`, rolling correctly over a leap-year month boundary
and over midnight/new-year. -/
theorem normalizer_roundtrip :
    (∀ d : DateTime, d.hour < 24 → convertToISOLocalParse (formatDateTime d) = some d)
    ∧ (∀ now : DateTime, now.hour < 24 →
        convertToISOLocalParse (convertToActualDateTime now (("2 hours ago").data))
          = some (subHours now 2))
    ∧ hour12 0 = 12 ∧ hour12 12 = 12
    ∧ convertToActualDateTime ⟨2024, 3, 1, 1, 30⟩ (("2 hours ago").data)
        = formatDateTime ⟨2024, 2, 29, 23, 30⟩
    ∧ convertToActualDateTime ⟨2025, 1, 1, 0, 15⟩ (("2 hours ago").data)
        = formatDateTime ⟨2024, 12, 31, 22, 15⟩ := by
  refine ⟨localParse_format, ?_, by decide, by decide, by decide, by decide⟩
  intro now h
  rw [convertToActualDateTime_2h]
  exact localParse_format _ (subHours_hour_lt now h 2)

/-- C7 witness: the round trip at the concrete instant 2024-03-01 01:30
(local), whose "2 hours ago" crosses the leap-February month boundary. -/
theorem normalizer_roundtrip_witness :
    convertToISOLocalParse (formatDateTime ⟨2024, 3, 1, 1, 30⟩) = some ⟨2024, 3, 1, 1, 30⟩
    ∧ convertToISOLocalParse
        (convertToActualDateTime ⟨2024, 3, 1, 1, 30⟩ (("2 hours ago").data))
      = some (subHours ⟨2024, 3, 1, 1, 30⟩ 2) :=
  ⟨normalizer_roundtrip.1 ⟨2024, 3, 1, 1, 30⟩ (by decide),
   normalizer_roundtrip.2.1 ⟨2024, 3, 1, 1, 30⟩ (by decide)⟩

end JobScraper
